import Mathlib

set_option maxRecDepth 8192

/-!
Verification of the `llm-response-mcp` server.

The repository contains two variants of the same single-file server:

* `src/index.ts` — the plain-text variant: the watched file is
  `windsurf_user_input.txt`, the rendered template is history lines followed by
  the separator line `--- Type your message below (end with //SEND to submit) ---`,
  the completion predicate is `trimmed.toUpperCase().endsWith("//SEND")` and the
  extraction splits on the separator and strips a trailing `//SEND`
  (case-insensitively).  Modelled below in namespace `Txt`.

* `src/unnamed/part_000` — the markdown variant: the watched file is
  `windsurf_user_input.md`, the template is a markdown document whose editable
  region is a fenced code block ending in a `//SEND` template hint, the
  completion predicate is the regex test `/\/\/SEND\s*<bt><bt><bt>?\s*$/i`
  (where `<bt>` is a backtick: note the `?` quantifies only the third backtick)
  and the extraction takes the lazily-captured group of
  `/<bt><bt><bt>\s*([\s\S]*?)\/\/SEND\s*<bt><bt><bt>/i`, falling back to
  deleting the end-anchored marker match.  Modelled below in namespace `Md`.

Everything both variants share — the history bookkeeping, the change-event
handler skeleton, and the stdio JSON-RPC dispatcher — is modelled once.

Strings are modelled as `List Char`.  JavaScript `trim`/`\s` is modelled over
the ASCII whitespace characters (all content handled by the server in scope
here is ASCII).  Machine integers do not occur; JSON numbers are modelled as
`Int` (only identity/echoing of ids matters to the claims).
-/

/-- Character list of a string literal (JS strings as `List Char`). -/
def chars (s : String) : List Char := s.data

/-- ASCII fragment of JavaScript whitespace (`\s`, and the set trimmed by
`String.prototype.trim`): space, tab, line feed, carriage return, vertical
tab, form feed. -/
def isWs (c : Char) : Bool :=
  c = ' ' || c = '\t' || c = '\n' || c = '\r' || c = '\x0b' || c = '\x0c'

/-- Leading-whitespace removal (left part of JS `trim`). -/
def trimL (l : List Char) : List Char := l.dropWhile isWs

/-- Trailing-whitespace removal (right part of JS `trim`). -/
def trimR (l : List Char) : List Char := (l.reverse.dropWhile isWs).reverse

/-- JS `String.prototype.trim`: remove leading and trailing whitespace. -/
def trim (l : List Char) : List Char := trimR (trimL l)

/-- The completion marker literal `//SEND` (`sendMarker` in `src/index.ts`). -/
def sendMarker : List Char := chars "//SEND"

/-- Case-insensitive end-of-string test for the completion marker:
`trimmed.toUpperCase().endsWith("//SEND")` (the marker literal is already
upper-case, so upper-casing the subject realises the case-insensitive
comparison). -/
def endsWithMarkerCI (l : List Char) : Bool :=
  decide (sendMarker <:+ l.map Char.toUpper)

/-- JS `String.prototype.includes`: substring containment. -/
def includesSub (sep l : List Char) : Bool := decide (sep <:+: l)

/-- The result object a tool resolves with: `{status, user_message?, input_file?}`
(`WaitResult` in the source). -/
structure WaitResult where
  status : List Char
  user_message : Option (List Char) := none
  input_file : Option (List Char) := none
deriving Repr, DecidableEq

/-- The successful resolution value `{status: "success", user_message: m}`. -/
def successResult (m : List Char) : WaitResult :=
  { status := chars "success", user_message := some m }

/-- State of one `waitForUserInput` cycle: the accumulated `history` array of
rendered entry strings, whether the file-watch subscription opened by `watch`
is still active (`watcher.close()` has not run), and the value the pending
promise has been resolved with, if any. -/
structure EngineState where
  history : List (List Char)
  watching : Bool
  result : Option WaitResult
deriving Repr, DecidableEq

/-- A rendered history entry: the template literal
`[timestamp] USER: userMessage` pushed onto `this.history`. -/
def renderEntry (timestamp userMessage : List Char) : List Char :=
  '[' :: timestamp ++ chars "] USER: " ++ userMessage

/-- The body of the `watch` change-event callback, parameterised by the
variant's message-extraction function `ex` (`ex content = none` exactly when
the trimmed content is empty or the completion-marker check rejects it;
`ex content = some um` returns the extracted, trimmed user message, possibly
empty).  When the watcher has been closed no further events are delivered,
modelled by returning the state unchanged. -/
def handleChangeWith (ex : List Char → Option (List Char))
    (now : List Char) (st : EngineState) (content : List Char) : EngineState :=
  if st.watching then
    match ex content with
    | none => st
    | some um =>
      if um = [] then st
      else
        { history := st.history ++ [renderEntry now um],
          watching := false,
          result := some (successResult um) }
  else st

/-- Fold a sequence of change events (each a timestamp/content pair) through
the change-event handler. -/
def runEvents (ex : List Char → Option (List Char))
    (st : EngineState) (evs : List (List Char × List Char)) : EngineState :=
  evs.foldl (fun s e => handleChangeWith ex e.1 s e.2) st

namespace Txt

/-- The separator line of the plain-text template (`separator` in
`src/index.ts`, line 75). -/
def sepLine : List Char :=
  chars "--- Type your message below (end with //SEND to submit) ---"

/-- The rendered file body of `src/index.ts` lines 46–48: joined history lines
(when non-empty) followed by the instruction separator and a blank editable
region reaching to the end of the file. -/
def renderFile (history : List (List Char)) : List Char :=
  if history = [] then sepLine ++ chars "\n\n"
  else List.intercalate (chars "\n") history ++ chars "\n\n" ++ sepLine ++ chars "\n\n"

/-- Index of the first occurrence of `sep` in a list (JS `indexOf`). -/
def firstOccIdx (sep : List Char) : List Char → Option Nat
  | [] => if sep = [] then some 0 else none
  | c :: rest =>
    if sep.isPrefixOf (c :: rest) then some 0
    else (firstOccIdx sep rest).map (· + 1)

/-- JS `String.prototype.split` on a non-empty separator: left-to-right
non-overlapping scan.  `fuel` bounds the recursion; every call below passes
`l.length + 1`, which always suffices because each step consumes at least one
character. -/
def jsSplit (sep : List Char) : Nat → List Char → List (List Char)
  | 0, l => [l]
  | fuel + 1, l =>
    match firstOccIdx sep l with
    | none => [l]
    | some i => l.take i :: jsSplit sep fuel (l.drop (i + sep.length))

/-- `userMessage.replace(/\/\/SEND$/i, "")`: delete a trailing completion
marker, compared case-insensitively, when present. -/
def stripMarker (um : List Char) : List Char :=
  if endsWithMarkerCI um then um.take (um.length - sendMarker.length) else um

/-- The message-extraction logic of `src/index.ts` lines 63–83: trim the file
content, require it non-empty, require the case-insensitive `//SEND` at the
very end, take everything after the last separator occurrence when the
separator is present (`split(separator).pop()?.trim() || ""`), then delete the
trailing marker and trim. -/
def extractUserMessage (content : List Char) : Option (List Char) :=
  let trimmed := trim content
  if trimmed = [] then none
  else if !endsWithMarkerCI trimmed then none
  else
    let userMessage :=
      if includesSub sepLine trimmed then
        trim ((jsSplit sepLine (trimmed.length + 1) trimmed).getLastD [])
      else trimmed
    some (trim (stripMarker userMessage))

/-- The change-event handler of the plain-text variant. -/
def handleChange (now : List Char) (st : EngineState) (content : List Char) :
    EngineState :=
  handleChangeWith extractUserMessage now st content

end Txt

namespace Md

/-- A backtick character (code 96), written via `Char.ofNat`. -/
def bt : Char := Char.ofNat 96

/-- A code fence: three backticks. -/
def fence : List Char := [bt, bt, bt]

/-- The fixed instruction block of `src/unnamed/part_000` line 49: a markdown
heading, the instruction sentence, and a fenced editable region containing the
`//SEND` template hint. -/
def instructions : List Char :=
  chars "## Your Message\n\nType your message below. End with `//SEND` to submit.\n\n```\n\n//SEND\n```"

/-- The rendered file body of `src/unnamed/part_000` lines 46–50: an optional
history section (heading, entries joined by blank lines, horizontal rule)
followed by the instruction block. -/
def renderFile (history : List (List Char)) : List Char :=
  (if history = [] then []
   else chars "## Conversation History\n\n"
     ++ List.intercalate (chars "\n\n") history ++ chars "\n\n---\n\n")
  ++ instructions

/-- Case-insensitive test that the completion marker starts here:
`/\/\/SEND/i` matched as a prefix. -/
def markerPrefixCI (l : List Char) : Bool :=
  decide (sendMarker <+: l.map Char.toUpper)

/-- Whether a suffix position matches the whole end-anchored regex
`/\/\/SEND\s*<bt><bt><bt>?\s*$/i` from here to the end of the string: the
marker, optional whitespace, two backticks with an optional third (the `?`
quantifies only the third backtick), optional whitespace, end.  After skipping
whitespace the backtick run must be exactly two or three long: a longer run
leaves a backtick that neither `\s*` nor `$` can consume. -/
def tailMatch (l : List Char) : Bool :=
  markerPrefixCI l &&
    (let r := (l.drop sendMarker.length).dropWhile isWs
     let m := (r.takeWhile (· = bt)).length
     (decide (m = 2) || decide (m = 3)) && decide ((r.drop m).dropWhile isWs = []))

/-- Index of the leftmost position whose suffix matches the end-anchored
marker regex (the position a non-global `test`/`replace` finds). -/
def sendTailIdx : List Char → Option Nat
  | [] => none
  | c :: rest =>
    if tailMatch (c :: rest) then some 0
    else (sendTailIdx rest).map (· + 1)

/-- `/\/\/SEND\s*<bt><bt><bt>?\s*$/i.test(trimmed)` of `src/unnamed/part_000`
line 70. -/
def hasSendMarker (t : List Char) : Bool := (sendTailIdx t).isSome

/-- `trimmed.replace(/\/\/SEND\s*<bt><bt><bt>?\s*$/i, "")` of line 81: delete
the end-anchored match when present. -/
def replaceTail (t : List Char) : List Char :=
  match sendTailIdx t with
  | some j => t.take j
  | none => t

/-- Whether the closing part `\/\/SEND\s*<bt><bt><bt>` of the code-block regex
matches as a prefix here: the marker, optional whitespace, then a fence (the
regex is unanchored on the right, so anything may follow the fence). -/
def capStop (l : List Char) : Bool :=
  markerPrefixCI l &&
    fence.isPrefixOf ((l.drop sendMarker.length).dropWhile isWs)

/-- The lazily-captured group `([\s\S]*?)` of the code-block regex, scanned
from a position just after the opening fence and its greedily-consumed
whitespace: the shortest prefix whose end begins the closing
`\/\/SEND\s*<bt><bt><bt>` part. -/
def findCap : List Char → Option (List Char)
  | [] => none
  | c :: rest =>
    if capStop (c :: rest) then some []
    else (findCap rest).map (c :: ·)

/-- `trimmed.match(/<bt><bt><bt>\s*([\s\S]*?)\/\/SEND\s*<bt><bt><bt>/i)` of
line 78: the capture of the leftmost match.  The scan tries each start
position left to right; a start must be an opening fence; the `\s*` after it
is greedy (the captured text can never begin inside the whitespace run,
because the closing part starts with a non-whitespace `/`); the capture is
lazy, ending at the first closing-part occurrence. -/
def scanCB : List Char → Option (List Char)
  | [] => none
  | c :: rest =>
    if fence.isPrefixOf (c :: rest) then
      match findCap (((c :: rest).drop fence.length).dropWhile isWs) with
      | some cap => some cap
      | none => scanCB rest
    else scanCB rest

/-- The message-extraction logic of `src/unnamed/part_000` lines 65–81: trim
the file content, require it non-empty, require the end-anchored marker regex
to match, then take the trimmed code-block capture when the code-block regex
matches, else the content with the end-anchored marker match deleted,
trimmed. -/
def extractUserMessage (content : List Char) : Option (List Char) :=
  let trimmed := trim content
  if trimmed = [] then none
  else if !hasSendMarker trimmed then none
  else some (match scanCB trimmed with
    | some cap => trim cap
    | none => trim (replaceTail trimmed))

/-- The change-event handler of the markdown variant. -/
def handleChange (now : List Char) (st : EngineState) (content : List Char) :
    EngineState :=
  handleChangeWith extractUserMessage now st content

end Md

/-- A JSON value as produced by `JSON.parse` (`undefined` is not a possible
parse result and is modelled as `Option.none` at use sites; numbers are
modelled as `Int`, which covers every id the claims touch). -/
inductive JVal where
  | null : JVal
  | bool : Bool → JVal
  | num : Int → JVal
  | str : List Char → JVal
  | arr : List JVal → JVal
  | obj : List (List Char × JVal) → JVal
deriving Repr

/-- First-match field lookup in an object. -/
def jlookup (k : List Char) : List (List Char × JVal) → Option JVal
  | [] => none
  | (k', v) :: rest => if k' = k then some v else jlookup k rest

/-- JavaScript property access `v[k]` on a parse-produced value: throws
(`Except.error`) on `undefined` and `null` receivers; looks the field up on an
object; yields `undefined` on the remaining primitives and on arrays (none of
them has an own property named `method`, `id`, `params`, `name` or
`arguments`, the only keys the dispatcher reads). -/
def jsGetProp : Option JVal → List Char → Except Unit (Option JVal)
  | none, _ => .error ()
  | some .null, _ => .error ()
  | some (.obj fs), k => .ok (jlookup k fs)
  | some _, _ => .ok none

/-- JavaScript string coercion as used by the template literal
`Unknown tool: (name)`: `undefined`/`null` print as their names, strings print
verbatim, numbers in decimal, arrays join their elements with commas (with
`null` elements printing as empty), objects print as `[object Object]`. -/
def jsToString : Option JVal → List Char
  | none => chars "undefined"
  | some v => jsToStringV v
where
  jsToStringV : JVal → List Char
    | .null => chars "null"
    | .bool true => chars "true"
    | .bool false => chars "false"
    | .num n => chars (toString n)
    | .str s => s
    | .obj _ => chars "[object Object]"
    | .arr xs => jsToStringArr xs
  jsToStringArr : List JVal → List Char
    | [] => []
    | [x] => jsToStringElem x
    | x :: xs => jsToStringElem x ++ ',' :: jsToStringArr xs
  jsToStringElem : JVal → List Char
    | .null => []
    | v => jsToStringV v

/-- JavaScript truthiness test, for `request.params.arguments || {}`. -/
def jsTruthy : Option JVal → Bool
  | none => false
  | some .null => false
  | some (.bool b) => b
  | some (.num n) => decide (n ≠ 0)
  | some (.str s) => decide (s ≠ [])
  | some (.arr _) => true
  | some (.obj _) => true

/-- `a || b` on a possibly-undefined left operand. -/
def jsOr (a : Option JVal) (b : JVal) : JVal :=
  match a with
  | some v => if jsTruthy (some v) then v else b
  | none => b

/-- `server.getInputFilePath()`: `{status: "success", input_file: path}`.  The
path itself comes from the OS temp directory, fixed at startup, and is passed
in as a parameter. -/
def getInputFileResult (path : List Char) : JVal :=
  .obj [(chars "status", .str (chars "success")),
        (chars "input_file", .str path)]

/-- JS strict equality (`===`) of a possibly-undefined value with a string
literal: true exactly for an equal string (no coercion; object comparisons are
by reference and can never equal a fresh literal). -/
def isStrV : Option JVal → List Char → Bool
  | some (.str t), s => decide (t = s)
  | _, _ => false

/-- The default-branch payload of `handleToolCall`:
`{status: "error", message: "Unknown tool: (name)"}`. -/
def unknownToolResult (name : Option JVal) : JVal :=
  .obj [(chars "status", .str (chars "error")),
        (chars "message", .str (chars "Unknown tool: " ++ jsToString name))]

/-- `handleToolCall` (`src/index.ts` lines 162–173): the `switch` on the tool
name.  The suspended outcome of `server.waitForUserInput()` is passed in as
`waitOutcome` (the Wait Engine itself is modelled separately above); `args` is
accepted and ignored exactly as in the source. -/
def handleToolCall (waitOutcome : JVal) (path : List Char)
    (name : Option JVal) (_args : JVal) : JVal :=
  if isStrV name (chars "wait_for_user_input") then waitOutcome
  else if isStrV name (chars "get_input_file") then getInputFileResult path
  else unknownToolResult name

/-- One line of the server's stdout per handled input line.  `resultInit` and
`resultToolsList` carry the echoed id of the fixed-payload responses;
`resultCall` carries the id and the tool result wrapped into the single
text-content item (the JSON text serialisation itself is out of scope);
`errResp` is a JSON-RPC error object with the given id and code; `noResponse`
is the empty string returned for notifications, which the main loop does not
print. -/
inductive Response where
  | resultInit : Option JVal → Response
  | resultToolsList : Option JVal → Response
  | resultCall : Option JVal → JVal → Response
  | errResp : Option JVal → Int → Response
  | noResponse : Response
deriving Repr

/-- The dispatch on `request.method` inside the `try` of `handleMessage`
(`src/index.ts` lines 178–225).  Property accesses go through `jsGetProp`, so
a thrown `TypeError` propagates as `Except.error` to the `catch`.  The order
of accesses follows the source: `method`, then for `tools/call`
`params.name`, `params.arguments` and the echoed `id`. -/
def dispatchReq (waitOutcome : JVal) (path : List Char) (req : JVal) :
    Except Unit Response :=
  match jsGetProp (some req) (chars "method") with
  | .error e => .error e
  | .ok m =>
    if isStrV m (chars "initialize") then
      match jsGetProp (some req) (chars "id") with
      | .error e => .error e
      | .ok i => .ok (.resultInit i)
    else if isStrV m (chars "tools/list") then
      match jsGetProp (some req) (chars "id") with
      | .error e => .error e
      | .ok i => .ok (.resultToolsList i)
    else if isStrV m (chars "tools/call") then
      match jsGetProp (some req) (chars "params") with
      | .error e => .error e
      | .ok p =>
        match jsGetProp p (chars "name") with
        | .error e => .error e
        | .ok n =>
          match jsGetProp p (chars "arguments") with
          | .error e => .error e
          | .ok a =>
            match jsGetProp (some req) (chars "id") with
            | .error e => .error e
            | .ok i =>
              .ok (.resultCall i (handleToolCall waitOutcome path n (jsOr a (.obj []))))
    else if isStrV m (chars "notifications/initialized") then
      .ok .noResponse
    else
      match jsGetProp (some req) (chars "id") with
      | .error e => .error e
      | .ok i => .ok (.errResp i (-32601))

/-- One non-empty input line after `JSON.parse`: either the parse threw, or it
produced a JSON value. -/
inductive LineInput where
  | malformed : LineInput
  | parsed : JVal → LineInput

/-- `handleMessage` (`src/index.ts` lines 176–233): a parse failure, or any
exception thrown inside the `try` (such as the `TypeError` from
`request.params.name` on a missing `params`), lands in the `catch`, which
answers with error code `-32700` and literal `id: null`. -/
def handleMessage (waitOutcome : JVal) (path : List Char) : LineInput → Response
  | .malformed => .errResp (some .null) (-32700)
  | .parsed req =>
    match dispatchReq waitOutcome path req with
    | .ok r => r
    | .error _ => .errResp (some .null) (-32700)

/-- Whether the main loop prints this response (`if (response)`: only the
empty notification response is suppressed). -/
def emits : Response → Bool
  | .noResponse => false
  | _ => true

/-- The read loop of `main` (`src/index.ts` lines 246–265) over a sequence of
complete non-empty input lines: each line is handled in order and every
non-empty response is printed. -/
def serveLines (waitOutcome : JVal) (path : List Char)
    (lines : List LineInput) : List Response :=
  (lines.map (handleMessage waitOutcome path)).filter emits

/-! ## Lemmas about whitespace trimming -/

/-- Dropping leading whitespace ignores an all-whitespace prefix. -/
theorem dropWhile_ws_append {w : List Char} (x : List Char)
    (h : ∀ c ∈ w, isWs c = true) :
    (w ++ x).dropWhile isWs = x.dropWhile isWs := by
  induction w with
  | nil => rfl
  | cons c w ih =>
    rw [List.cons_append, List.dropWhile_cons, if_pos (h c (by simp))]
    exact ih (fun d hd => h d (by simp [hd]))

/-- `trimL` ignores an all-whitespace prefix. -/
theorem trimL_ws_append {w : List Char} (x : List Char)
    (h : ∀ c ∈ w, isWs c = true) : trimL (w ++ x) = trimL x :=
  dropWhile_ws_append x h

/-- `trimL` keeps a list whose head is not whitespace. -/
theorem trimL_cons_of_not_ws {c : Char} (l : List Char) (h : isWs c = false) :
    trimL (c :: l) = c :: l := by
  simp [trimL, List.dropWhile_cons, h]

/-- `trimL` drops a whitespace head. -/
theorem trimL_cons_of_ws {c : Char} (l : List Char) (h : isWs c = true) :
    trimL (c :: l) = trimL l := by
  rw [trimL, trimL, List.dropWhile_cons, if_pos h]

/-- The head surviving `trimL` is not whitespace. -/
theorem trimL_head_not_ws : ∀ {l : List Char} {c : Char} {r : List Char},
    trimL l = c :: r → isWs c = false := by
  intro l
  induction l with
  | nil => intro c r h; simp [trimL] at h
  | cons a l ih =>
    intro c r h
    rw [trimL, List.dropWhile_cons] at h
    by_cases ha : isWs a = true
    · rw [if_pos ha] at h; exact ih h
    · rw [if_neg ha] at h
      cases h
      exact eq_false_of_ne_true ha

/-- `trimL` distributes over an append whose left part is not all
whitespace. -/
theorem trimL_append {a : List Char} (b : List Char) (h : trimL a ≠ []) :
    trimL (a ++ b) = trimL a ++ b := by
  induction a with
  | nil => exact absurd rfl h
  | cons c l ih =>
    by_cases hc : isWs c = true
    · rw [List.cons_append, trimL_cons_of_ws _ hc, trimL_cons_of_ws _ hc]
      rw [trimL_cons_of_ws _ hc] at h
      exact ih h
    · replace hc := eq_false_of_ne_true hc
      rw [List.cons_append, trimL_cons_of_not_ws _ hc, trimL_cons_of_not_ws _ hc]
      rfl

/-- `trimR` ignores an all-whitespace suffix. -/
theorem trimR_append_ws (l : List Char) {w : List Char}
    (h : ∀ c ∈ w, isWs c = true) : trimR (l ++ w) = trimR l := by
  rw [trimR, List.reverse_append,
    dropWhile_ws_append l.reverse (fun c hc => h c (List.mem_reverse.mp hc))]
  rfl

/-- `trimR` keeps a list whose last element is not whitespace. -/
theorem trimR_append_not_ws (l : List Char) {c : Char} (h : isWs c = false) :
    trimR (l ++ [c]) = l ++ [c] := by
  simp [trimR, List.reverse_append, List.dropWhile_cons, h]

/-- If `trimL` empties a list, so does `trim`. -/
theorem trim_eq_nil_of_trimL (l : List Char) (h : trimL l = []) :
    trim l = [] := by rw [trim, h]; rfl

/-! ## Claims -/

/-- C1.  For a file save whose trimmed content is an editable-region body
terminated by the completion marker, the Wait Engine's extraction strips the
marker and trims the result: in the plain-text variant, for every message
`msg` (non-blank, not containing the separator line) the content
`msg ++ "\n//SEND"` extracts to `trim msg` — in particular
`"hello\nworld\n//SEND"` extracts to `"hello\nworld"` (the witness) — and in
the markdown variant the rendered file whose fenced editable region holds
`hello\nworld\n//SEND` extracts to `"hello\nworld"` (the region delimiters
are stripped as well). -/
theorem c1_marker_extraction :
    (∀ msg : List Char, trim msg ≠ [] →
      ¬(Txt.sepLine <:+: msg ++ chars "\n//SEND") →
      Txt.extractUserMessage (msg ++ chars "\n//SEND") = some (trim msg)) ∧
    Md.extractUserMessage
      (chars "## Your Message\n\nType your message below. End with `//SEND` to submit.\n\n```\nhello\nworld\n//SEND\n```")
      = some (chars "hello\nworld") := by
  constructor
  · intro msg h1 h2
    have hL : trimL msg ≠ [] := fun h => h1 (trim_eq_nil_of_trimL msg h)
    have e1 : trimL (msg ++ chars "\n//SEND") = trimL msg ++ chars "\n//SEND" :=
      trimL_append _ hL
    have e2 : trimR (trimL msg ++ chars "\n//SEND") = trimL msg ++ chars "\n//SEND" := by
      have hsplit : trimL msg ++ chars "\n//SEND"
          = (trimL msg ++ chars "\n//SEN") ++ ['D'] := by
        rw [List.append_assoc]; rfl
      rw [hsplit]
      exact trimR_append_not_ws _ (by decide)
    have etrim : trim (msg ++ chars "\n//SEND") = trimL msg ++ chars "\n//SEND" := by
      rw [trim, e1, e2]
    have hne : trimL msg ++ chars "\n//SEND" ≠ [] := by
      intro h
      rcases List.append_eq_nil.mp h with ⟨-, h'⟩
      exact absurd h' (by decide)
    have hmark : endsWithMarkerCI (trimL msg ++ chars "\n//SEND") = true := by
      apply decide_eq_true
      rw [List.map_append,
        show (chars "\n//SEND").map Char.toUpper = chars "\n//SEND" from by decide]
      exact (show sendMarker <:+ chars "\n//SEND" by decide).trans
        (List.suffix_append _ _)
    have hincl : includesSub Txt.sepLine (trimL msg ++ chars "\n//SEND") = false := by
      apply decide_eq_false
      intro hin
      apply h2
      refine hin.trans ?_
      obtain ⟨u, hu⟩ := List.dropWhile_suffix (l := msg) isWs
      have hu' : u ++ trimL msg = msg := hu
      exact ((show trimL msg ++ chars "\n//SEND" <:+ msg ++ chars "\n//SEND" from
        ⟨u, by rw [← List.append_assoc, hu']⟩)).isInfix
    have hstrip : Txt.stripMarker (trimL msg ++ chars "\n//SEND")
        = trimL msg ++ ['\n'] := by
      rw [Txt.stripMarker, if_pos (by rw [hmark])]
      rw [List.length_append,
        show (chars "\n//SEND").length = 7 from rfl,
        show sendMarker.length = 6 from rfl,
        show (trimL msg).length + 7 - 6 = (trimL msg).length + 1 from by omega,
        List.take_append 1]
      rfl
    have efin : trim (trimL msg ++ ['\n']) = trim msg := by
      obtain ⟨c, r, hc⟩ : ∃ c r, trimL msg = c :: r := by
        cases h : trimL msg with
        | nil => exact absurd h hL
        | cons c r => exact ⟨c, r, rfl⟩
      have hcw : isWs c = false := trimL_head_not_ws hc
      rw [trim, hc, List.cons_append, trimL_cons_of_not_ws _ hcw,
        ← List.cons_append, ← hc,
        trimR_append_ws _ (by intro d hd; simp at hd; subst hd; rfl)]
      rfl
    have hcond2 : ¬((!endsWithMarkerCI (trimL msg ++ chars "\n//SEND")) = true) := by
      rw [hmark]; decide
    have hcond3 : ¬(includesSub Txt.sepLine (trimL msg ++ chars "\n//SEND") = true) := by
      rw [hincl]; decide
    rw [Txt.extractUserMessage]
    simp only []
    rw [etrim, if_neg hne, if_neg hcond2, if_neg hcond3, hstrip, efin]
  · rfl

/-- Witness for C1: the spec's concrete test case, extraction of
`"hello\nworld\n//SEND"` yields `"hello\nworld"` (note
`trim (chars "hello\nworld") = chars "hello\nworld"` holds by computation). -/
theorem c1_marker_extraction_witness :
    Txt.extractUserMessage (chars "hello\nworld" ++ chars "\n//SEND")
      = some (trim (chars "hello\nworld")) :=
  c1_marker_extraction.1 (chars "hello\nworld") (by decide) (by decide)

/-- C2.  The completion predicates at the failing input: the markdown
variant's regex test `/\/\/SEND\s*<bt><bt><bt>?\s*$/i` makes the first two
backticks mandatory (only the third is optional), so — contrary to the claim
and to the source's own comment `"(either at end or before closing <fence>)"`
— a save whose trimmed content ends in a bare `//SEND` is rejected and the
wait continues, while a malformed two-backtick tail, which is not a closing
delimiter of the editable region, is accepted.  The plain-text variant's
`endsWith` predicate does accept the bare marker. -/
theorem c2_completion_predicate :
    Md.hasSendMarker (chars "hello //SEND") = false ∧
    Md.hasSendMarker (chars "hello //SEND``") = true ∧
    Md.hasSendMarker (chars "hello //SEND\n```") = true ∧
    endsWithMarkerCI (chars "hello //SEND") = true ∧
    (∀ (st : EngineState) (now : List Char),
      Md.handleChange now st (chars "hello //SEND") = st) := by
  refine ⟨rfl, rfl, rfl, rfl, ?_⟩
  intro st now
  have hex : Md.extractUserMessage (chars "hello //SEND") = none := rfl
  rw [Md.handleChange, handleChangeWith, hex]
  by_cases h : st.watching = true
  · rw [if_pos h]
  · rw [if_neg h]

/-- C3.  For any extraction function: on a change event that passes the
completion predicate with a non-empty extracted message, the handler closes
the watch subscription (recorded in the resolved state, so that — second
conjunct — no event is ever processed against a closed subscription), appends
exactly one history entry rendering the current timestamp with the extracted
text, and resolves with `{status: "success", user_message: text}`. -/
theorem c3_success_resolution :
    (∀ (ex : List Char → Option (List Char)) (now : List Char)
       (st : EngineState) (content um : List Char),
      st.watching = true → ex content = some um → um ≠ [] →
      handleChangeWith ex now st content =
        { history := st.history ++ [renderEntry now um],
          watching := false,
          result := some (successResult um) }) ∧
    (∀ (ex : List Char → Option (List Char)) (now : List Char)
       (st : EngineState) (content : List Char),
      st.watching = false → handleChangeWith ex now st content = st) := by
  constructor
  · intro ex now st content um hw hex hum
    rw [handleChangeWith, if_pos hw, hex]
    exact if_neg hum
  · intro ex now st content hw
    rw [handleChangeWith, hw]
    rfl

/-- Witness for C3: a concrete resolving event in the plain-text variant. -/
theorem c3_success_resolution_witness :
    handleChangeWith Txt.extractUserMessage (chars "09:00:01")
      { history := [], watching := true, result := none }
      (chars "hi //SEND") =
      { history := [renderEntry (chars "09:00:01") (chars "hi")],
        watching := false,
        result := some (successResult (chars "hi")) } :=
  c3_success_resolution.1 Txt.extractUserMessage (chars "09:00:01")
    { history := [], watching := true, result := none }
    (chars "hi //SEND") (chars "hi") rfl (by decide) (by decide)

/-- C4.  A change event rejected by the extraction (no completion marker, in
particular empty content) is a no-op: the state — pending result, history and
watch subscription alike — is returned unchanged, so any number of such saves
leaves the engine state unchanged; and in both variants a trimmed content on
which the completion-marker test fails is indeed rejected by the
extraction. -/
theorem c4_rejected_events_noop :
    (∀ (ex : List Char → Option (List Char)) (now : List Char)
       (st : EngineState) (content : List Char),
      ex content = none → handleChangeWith ex now st content = st) ∧
    (∀ (ex : List Char → Option (List Char)) (st : EngineState)
       (evs : List (List Char × List Char)),
      (∀ e ∈ evs, ex e.2 = none) → runEvents ex st evs = st) ∧
    (∀ content : List Char, endsWithMarkerCI (trim content) = false →
      Txt.extractUserMessage content = none) ∧
    (∀ content : List Char, Md.hasSendMarker (trim content) = false →
      Md.extractUserMessage content = none) := by
  have noop : ∀ (ex : List Char → Option (List Char)) (now : List Char)
      (st : EngineState) (content : List Char),
      ex content = none → handleChangeWith ex now st content = st := by
    intro ex now st content hex
    rw [handleChangeWith, hex]
    by_cases h : st.watching = true
    · rw [if_pos h]
    · rw [if_neg h]
  refine ⟨noop, ?_, ?_, ?_⟩
  · intro ex st evs
    induction evs generalizing st with
    | nil => intro _; rfl
    | cons e evs ih =>
      intro h
      rw [runEvents, List.foldl_cons, noop ex e.1 st e.2 (h e (by simp))]
      exact ih st (fun e' he' => h e' (by simp [he']))
  · intro content h
    rw [Txt.extractUserMessage]
    by_cases ht : trim content = []
    · rw [if_pos ht]
    · rw [if_neg ht, if_pos (show (!endsWithMarkerCI (trim content)) = true from by
        rw [h]; rfl)]
  · intro content h
    rw [Md.extractUserMessage]
    by_cases ht : trim content = []
    · rw [if_pos ht]
    · rw [if_neg ht, if_pos (show (!Md.hasSendMarker (trim content)) = true from by
        rw [h]; rfl)]

/-- Witness for C4: three marker-less saves (a draft, an empty save, a longer
draft) leave a waiting plain-text engine exactly as it was. -/
theorem c4_rejected_events_noop_witness :
    handleChangeWith Txt.extractUserMessage (chars "09:00:01")
      { history := [], watching := true, result := none } (chars "draft")
      = { history := [], watching := true, result := none } ∧
    runEvents Txt.extractUserMessage
      { history := [], watching := true, result := none }
      [(chars "09:00:01", chars "draft"), (chars "09:00:02", chars ""),
       (chars "09:00:03", chars "a longer draft")]
      = { history := [], watching := true, result := none } :=
  ⟨c4_rejected_events_noop.1 Txt.extractUserMessage (chars "09:00:01")
      { history := [], watching := true, result := none } (chars "draft")
      (by decide),
   c4_rejected_events_noop.2.1 Txt.extractUserMessage
      { history := [], watching := true, result := none }
      [(chars "09:00:01", chars "draft"), (chars "09:00:02", chars ""),
       (chars "09:00:03", chars "a longer draft")]
      (by decide)⟩

/-- C5.  A save whose content is only whitespace around the bare completion
marker extracts to the empty message, so the handler neither resolves the
wait nor touches the history or the subscription: the plain-text engine is
unchanged for every such content, and the markdown engine is likewise
unchanged when the untouched rendered template (whose editable region is
empty around its `//SEND` hint) is saved. -/
theorem c5_empty_submission :
    (∀ (w₁ w₂ : List Char) (st : EngineState) (now : List Char),
      (∀ c ∈ w₁, isWs c = true) → (∀ c ∈ w₂, isWs c = true) →
      Txt.handleChange now st (w₁ ++ sendMarker ++ w₂) = st) ∧
    (∀ (st : EngineState) (now : List Char),
      Md.handleChange now st (Md.renderFile []) = st) := by
  constructor
  · intro w₁ w₂ st now h1 h2
    have hex : Txt.extractUserMessage (w₁ ++ sendMarker ++ w₂) = some [] := by
      have ht : trim (w₁ ++ sendMarker ++ w₂) = sendMarker := by
        rw [trim, List.append_assoc, trimL_ws_append _ h1,
          show sendMarker ++ w₂ = '/' :: (chars "/SEND" ++ w₂) from rfl,
          trimL_cons_of_not_ws _ (by decide),
          show ('/' : Char) :: (chars "/SEND" ++ w₂) = sendMarker ++ w₂ from rfl,
          trimR_append_ws _ h2]
        decide
      rw [Txt.extractUserMessage]
      rw [ht]
      decide
    rw [Txt.handleChange, handleChangeWith, hex]
    by_cases h : st.watching = true
    · rw [if_pos h]; rfl
    · rw [if_neg h]
  · intro st now
    have hex : Md.extractUserMessage (Md.renderFile []) = some [] := rfl
    rw [Md.handleChange, handleChangeWith, hex]
    by_cases h : st.watching = true
    · rw [if_pos h]; rfl
    · rw [if_neg h]

/-- Witness for C5: a concrete whitespace-only submission (` \n//SEND \n`)
leaves a waiting plain-text engine unchanged. -/
theorem c5_empty_submission_witness :
    Txt.handleChange (chars "09:00:01")
      { history := [], watching := true, result := none }
      (chars " \n" ++ sendMarker ++ chars " \n")
      = { history := [], watching := true, result := none } :=
  c5_empty_submission.1 (chars " \n") (chars " \n")
    { history := [], watching := true, result := none } (chars "09:00:01")
    (by decide) (by decide)

/-- C6.  The history is append-only: under any sequence of change events the
resulting history extends the starting history (entries are never removed,
mutated or reordered).  Concretely, a first wait submitting `a` and a second
wait submitting `b` (each save consisting of the freshly rendered file plus
the typed message and marker) append their entries in submission order, and
the file body rendered for the next wait lists the `a` entry strictly before
the `b` entry, ahead of the separator. -/
theorem c6_history_append_only :
    (∀ (ex : List Char → Option (List Char)) (st : EngineState)
       (evs : List (List Char × List Char)),
      ∃ suf, (runEvents ex st evs).history = st.history ++ suf) ∧
    (runEvents Txt.extractUserMessage
        { history := [], watching := true, result := none }
        [(chars "09:00:01", Txt.renderFile [] ++ chars "a//SEND")]
      = { history := [renderEntry (chars "09:00:01") (chars "a")],
          watching := false, result := some (successResult (chars "a")) }) ∧
    (runEvents Txt.extractUserMessage
        { history := [renderEntry (chars "09:00:01") (chars "a")],
          watching := true, result := none }
        [(chars "09:02:03",
          Txt.renderFile [renderEntry (chars "09:00:01") (chars "a")]
            ++ chars "b//SEND")]
      = { history := [renderEntry (chars "09:00:01") (chars "a"),
                      renderEntry (chars "09:02:03") (chars "b")],
          watching := false, result := some (successResult (chars "b")) }) ∧
    Txt.renderFile [renderEntry (chars "09:00:01") (chars "a"),
                    renderEntry (chars "09:02:03") (chars "b")]
      = renderEntry (chars "09:00:01") (chars "a") ++ chars "\n"
        ++ renderEntry (chars "09:02:03") (chars "b") ++ chars "\n\n"
        ++ Txt.sepLine ++ chars "\n\n" := by
  refine ⟨?_, by decide, by decide, by decide⟩
  have hstep : ∀ (ex : List Char → Option (List Char)) (n : List Char)
      (st : EngineState) (c : List Char),
      ∃ d, (handleChangeWith ex n st c).history = st.history ++ d := by
    intro ex n st c
    rw [handleChangeWith]
    by_cases hw : st.watching = true
    · rw [if_pos hw]
      cases hex : ex c with
      | none => exact ⟨[], (List.append_nil _).symm⟩
      | some um =>
        show ∃ d, (if um = [] then st
          else { history := st.history ++ [renderEntry n um],
                 watching := false,
                 result := some (successResult um) }).history = st.history ++ d
        by_cases hum : um = []
        · rw [if_pos hum]
          exact ⟨[], (List.append_nil _).symm⟩
        · rw [if_neg hum]
          exact ⟨[renderEntry n um], rfl⟩
    · rw [if_neg hw]
      exact ⟨[], (List.append_nil _).symm⟩
  intro ex st evs
  induction evs generalizing st with
  | nil => exact ⟨[], (List.append_nil _).symm⟩
  | cons e evs ih =>
    obtain ⟨d1, h1⟩ := hstep ex e.1 st e.2
    obtain ⟨d2, h2⟩ := ih (handleChangeWith ex e.1 st e.2)
    refine ⟨d1 ++ d2, ?_⟩
    rw [runEvents, List.foldl_cons,
      show List.foldl (fun s ev => handleChangeWith ex ev.1 s ev.2)
          (handleChangeWith ex e.1 st e.2) evs
        = runEvents ex (handleChangeWith ex e.1 st e.2) evs from rfl,
      h2, h1, List.append_assoc]

/-- A value that strictly equals a string literal is exactly that string. -/
theorem eq_of_isStrV : ∀ {m : Option JVal} {s : List Char},
    isStrV m s = true → m = some (.str s) := by
  intro m s h
  cases m with
  | none => simp [isStrV] at h
  | some v =>
    cases v with
    | str t =>
      have ht : t = s := of_decide_eq_true h
      rw [ht]
    | null => simp [isStrV] at h
    | bool b => simp [isStrV] at h
    | num n => simp [isStrV] at h
    | arr xs => simp [isStrV] at h
    | obj fs => simp [isStrV] at h

/-- C7.  A `tools/call` request whose `params.name` is a string naming
neither of the two known tools is answered with a successful JSON-RPC result
(never a protocol-level error) whose payload is exactly
`{status: "error", message: "Unknown tool: <name>"}`, with the request's id
echoed. -/
theorem c7_unknown_tool :
    ∀ (w : JVal) (path : List Char) (fs ps : List (List Char × JVal))
      (n : List Char),
      jlookup (chars "method") fs = some (.str (chars "tools/call")) →
      jlookup (chars "params") fs = some (.obj ps) →
      jlookup (chars "name") ps = some (.str n) →
      n ≠ chars "wait_for_user_input" →
      n ≠ chars "get_input_file" →
      handleMessage w path (.parsed (.obj fs)) =
        .resultCall (jlookup (chars "id") fs)
          (.obj [(chars "status", .str (chars "error")),
                 (chars "message", .str (chars "Unknown tool: " ++ n))]) := by
  intro w path fs ps n hm hp hn h1 h2
  have i1 : isStrV (some (JVal.str n)) (chars "wait_for_user_input") = false :=
    decide_eq_false h1
  have i2 : isStrV (some (JVal.str n)) (chars "get_input_file") = false :=
    decide_eq_false h2
  have e1 : isStrV (some (JVal.str (chars "tools/call"))) (chars "initialize")
      = false := by decide
  have e2 : isStrV (some (JVal.str (chars "tools/call"))) (chars "tools/list")
      = false := by decide
  have e3 : isStrV (some (JVal.str (chars "tools/call"))) (chars "tools/call")
      = true := by decide
  simp only [handleMessage, dispatchReq, jsGetProp, hm, hp, hn, e1, e2, e3,
    i1, i2, Bool.false_eq_true, Bool.true_eq_false, if_false, if_true,
    handleToolCall, unknownToolResult, jsToString, jsToString.jsToStringV]

/-- C8.  A malformed input line is answered with a JSON-RPC error of code
`-32700` and literal `id: null`, and the read loop goes on serving every
line before and after it unchanged: the output for `pre ++ bad ++ post` is
the output for `pre`, then the parse error, then the output for `post`. -/
theorem c8_malformed_line :
    ∀ (w : JVal) (path : List Char) (pre post : List LineInput),
      serveLines w path (pre ++ .malformed :: post)
        = serveLines w path pre
          ++ .errResp (some .null) (-32700) :: serveLines w path post := by
  intro w path pre post
  simp only [serveLines, List.map_append, List.map_cons, List.filter_append,
    List.filter_cons, handleMessage, emits, if_true]

/-- C9.  A well-formed request (a JSON object) whose `method` is none of the
four recognised ones is answered with a JSON-RPC error of code exactly
`-32601`, the request's original `id` echoed unchanged. -/
theorem c9_method_not_found :
    ∀ (w : JVal) (path : List Char) (fs : List (List Char × JVal)),
      isStrV (jlookup (chars "method") fs) (chars "initialize") = false →
      isStrV (jlookup (chars "method") fs) (chars "tools/list") = false →
      isStrV (jlookup (chars "method") fs) (chars "tools/call") = false →
      isStrV (jlookup (chars "method") fs) (chars "notifications/initialized") = false →
      handleMessage w path (.parsed (.obj fs))
        = .errResp (jlookup (chars "id") fs) (-32601) := by
  intro w path fs h1 h2 h3 h4
  simp only [handleMessage, dispatchReq, jsGetProp, h1, h2, h3, h4,
    Bool.false_eq_true, if_false]

/-- Witness for C7: the unknown tool name `frobnicate`. -/
theorem c7_unknown_tool_witness :
    handleMessage .null (chars "/tmp/f")
      (.parsed (.obj [(chars "method", .str (chars "tools/call")),
                      (chars "id", .num 3),
                      (chars "params",
                        .obj [(chars "name", .str (chars "frobnicate"))])]))
      = .resultCall (some (.num 3))
          (.obj [(chars "status", .str (chars "error")),
                 (chars "message",
                  .str (chars "Unknown tool: " ++ chars "frobnicate"))]) :=
  c7_unknown_tool .null (chars "/tmp/f")
    [(chars "method", .str (chars "tools/call")),
     (chars "id", .num 3),
     (chars "params", .obj [(chars "name", .str (chars "frobnicate"))])]
    [(chars "name", .str (chars "frobnicate"))]
    (chars "frobnicate") rfl rfl rfl (by decide) (by decide)

/-- Witness for C9: the unrecognised method `resources/list`. -/
theorem c9_method_not_found_witness :
    handleMessage .null (chars "/tmp/f")
      (.parsed (.obj [(chars "method", .str (chars "resources/list")),
                      (chars "id", .num 7)]))
      = .errResp (some (.num 7)) (-32601) :=
  c9_method_not_found .null (chars "/tmp/f")
    [(chars "method", .str (chars "resources/list")), (chars "id", .num 7)]
    (by decide) (by decide) (by decide) (by decide)

/-- Counterexample to C10.  A well-formed `tools/call` request whose `params`
is the number `5` — a non-object — does *not* produce a `-32700` parse error
with null id: in JavaScript, property access on a non-null primitive does not
throw but yields `undefined`, so the dispatcher answers with a successful
result whose payload is the tool-level error `Unknown tool: undefined`, the
request id echoed. -/
theorem c10_counterexample :
    handleMessage .null (chars "/tmp/f")
      (.parsed (.obj [(chars "method", .str (chars "tools/call")),
                      (chars "id", .num 1),
                      (chars "params", .num 5)]))
      = .resultCall (some (.num 1))
          (.obj [(chars "status", .str (chars "error")),
                 (chars "message", .str (chars "Unknown tool: undefined"))]) ∧
    handleMessage .null (chars "/tmp/f")
      (.parsed (.obj [(chars "method", .str (chars "tools/call")),
                      (chars "id", .num 1),
                      (chars "params", .num 5)]))
      ≠ .errResp (some .null) (-32700) :=
  ⟨rfl, fun h => nomatch h⟩

/-- C10 (amended).  In a well-formed `tools/call` request, when `params` is
absent or JSON `null` the access `request.params.name` throws a `TypeError`
inside the dispatcher's catch-all, so the response is the `-32700` error with
`id: null` even though the JSON parsed; but when `params` is present as a
non-null, non-object value such as a number, the access yields `undefined`
without throwing, and the response is a successful result whose payload is
the tool-level error `{status: "error", message: "Unknown tool: undefined"}`
with the request id echoed. -/
theorem c10_nonobject_params :
    (∀ (w : JVal) (path : List Char) (fs : List (List Char × JVal)),
      isStrV (jlookup (chars "method") fs) (chars "tools/call") = true →
      (jlookup (chars "params") fs = none ∨
        jlookup (chars "params") fs = some .null) →
      handleMessage w path (.parsed (.obj fs))
        = .errResp (some .null) (-32700)) ∧
    (∀ (w : JVal) (path : List Char) (fs : List (List Char × JVal)) (k : Int),
      isStrV (jlookup (chars "method") fs) (chars "tools/call") = true →
      jlookup (chars "params") fs = some (.num k) →
      handleMessage w path (.parsed (.obj fs))
        = .resultCall (jlookup (chars "id") fs)
          (.obj [(chars "status", .str (chars "error")),
                 (chars "message", .str (chars "Unknown tool: undefined"))])) := by
  have e1 : isStrV (some (JVal.str (chars "tools/call"))) (chars "initialize")
      = false := by decide
  have e2 : isStrV (some (JVal.str (chars "tools/call"))) (chars "tools/list")
      = false := by decide
  have e3 : isStrV (some (JVal.str (chars "tools/call"))) (chars "tools/call")
      = true := by decide
  constructor
  · intro w path fs hm hp
    have hm' : jlookup (chars "method") fs = some (.str (chars "tools/call")) :=
      eq_of_isStrV hm
    rcases hp with hp | hp <;>
      simp only [handleMessage, dispatchReq, jsGetProp, hm', hp, e1, e2, e3,
        Bool.false_eq_true, if_false, if_true]
  · intro w path fs k hm hp
    have hm' : jlookup (chars "method") fs = some (.str (chars "tools/call")) :=
      eq_of_isStrV hm
    have i1 : isStrV (none : Option JVal) (chars "wait_for_user_input")
        = false := rfl
    have i2 : isStrV (none : Option JVal) (chars "get_input_file")
        = false := rfl
    simp only [handleMessage, dispatchReq, jsGetProp, hm', hp, e1, e2, e3,
      i1, i2, Bool.false_eq_true, if_false, if_true,
      handleToolCall, unknownToolResult, jsToString]
    rfl

/-- Witness for the amended C10: a request with `params` missing gets the
`-32700`/null-id answer, one with `params: 5` gets the tool-level
`Unknown tool: undefined` result. -/
theorem c10_nonobject_params_witness :
    handleMessage .null (chars "/tmp/f")
      (.parsed (.obj [(chars "method", .str (chars "tools/call")),
                      (chars "id", .num 1)]))
      = .errResp (some .null) (-32700) ∧
    handleMessage .null (chars "/tmp/f")
      (.parsed (.obj [(chars "method", .str (chars "tools/call")),
                      (chars "id", .num 1),
                      (chars "params", .num 5)]))
      = .resultCall (some (.num 1))
          (.obj [(chars "status", .str (chars "error")),
                 (chars "message", .str (chars "Unknown tool: undefined"))]) :=
  ⟨c10_nonobject_params.1 .null (chars "/tmp/f")
      [(chars "method", .str (chars "tools/call")), (chars "id", .num 1)]
      rfl (Or.inl rfl),
   c10_nonobject_params.2 .null (chars "/tmp/f")
      [(chars "method", .str (chars "tools/call")), (chars "id", .num 1),
       (chars "params", .num 5)] 5 rfl rfl⟩
